import Mathlib

/-!
Verification of the task-watching subsystem of doozerlib/brew.py.

The Python functions are embedded shallowly: the remote Brew/Koji service,
the termination event and the wall clock are modelled as oracles collected
in environment structures, and every imperative loop becomes a fuel-indexed
recursive function over those oracles.  `none` always means the fuel ran
out, never a behaviour of the source program.
-/

namespace Doozer

/-- Observable fields of a `koji_cli.lib.TaskWatcher` after a successful
`watcher.update()` call: the numeric task state, whether `is_done()` holds,
whether `is_success()` holds, and the string `get_failure()` would return. -/
structure TaskInfo where
  state : Nat
  done : Bool
  success : Bool
  failure : String
deriving Repr, DecidableEq

/-- Result of one status query (`watcher.update()` plus the subsequent
inspection): either it returns normally, or it raises and
`traceback.format_exc()` yields `trace`. -/
inductive PollResult where
  | ok (info : TaskInfo)
  | exc (trace : String)
deriving Repr, DecidableEq

/-- Environment of `watch_task`: `poll k` is the outcome of the k-th status
query (0-indexed); `termSignal k` is what `terminate_event.wait(timeout=3*60)`
returns at the poll boundary after query k; `deadlineExceeded k` is whether
`time.time() > end` holds at that same boundary. -/
structure WatchEnv where
  poll : Nat → PollResult
  termSignal : Nat → Bool
  deadlineExceeded : Nat → Bool

/-- How the `while error is None` loop of `watch_task` terminated:
`done detail` models the `return None if watcher.is_success() else
watcher.get_failure()` statement inside the `try` block (an early return,
skipping the cancel code after the loop); `errSet msg` models leaving the
loop with the local variable `error` set to `msg` (give-up after 10
consecutive exceptions, interruption, or timeout). -/
inductive LoopExit where
  | done (detail : Option String)
  | errSet (msg : String)
deriving Repr, DecidableEq

/-- The body of `watch_task`'s polling loop.  `k` is the index of the next
status query, `exceptCount` the current value of `except_count`.  Each
iteration performs one query; on success the counter resets to 0 and the
done check may return early; on an exception the counter increments, and at
10 the code sets `error` and breaks (skipping the wait).  Otherwise the
bounded wait on the terminate event runs, then the deadline check.
The second component of the result is the total number of queries issued. -/
def watchTaskLoop (env : WatchEnv) : Nat → Nat → Nat → Option (LoopExit × Nat)
  | 0, _, _ => none
  | fuel + 1, k, exceptCount =>
    match env.poll k with
    | .ok info =>
      if info.done then
        some (.done (if info.success then none else some info.failure), k + 1)
      else if env.termSignal k then
        some (.errSet ("Interrupted"), k + 1)
      else if env.deadlineExceeded k then
        some (.errSet ("Timeout building image"), k + 1)
      else
        watchTaskLoop env fuel (k + 1) 0
    | .exc tr =>
      if 10 ≤ exceptCount + 1 then
        some (.errSet tr, k + 1)
      else if env.termSignal k then
        some (.errSet ("Interrupted"), k + 1)
      else if env.deadlineExceeded k then
        some (.errSet ("Timeout building image"), k + 1)
      else
        watchTaskLoop env fuel (k + 1) (exceptCount + 1)

/-- Result of `watch_task`: the returned value (`None` on success, a detail
string otherwise), whether the `brew cancel` subprocess call after the loop
was reached, and how many status queries were issued. -/
structure WatchTaskResult where
  detail : Option String
  cancelIssued : Bool
  polls : Nat
deriving Repr, DecidableEq

/-- `watch_task` of brew.py: run the polling loop; an early `return` inside
the `try` block skips the cancel call, while any exit with `error` set falls
through to `subprocess.check_call(("brew", "cancel", ...))` and then
`return error`. -/
def watch_task (env : WatchEnv) (fuel : Nat) : Option WatchTaskResult :=
  match watchTaskLoop env fuel 0 0 with
  | none => none
  | some (.done d, n) => some ⟨d, false, n⟩
  | some (.errSet e, n) => some ⟨some e, true, n⟩

section WatchTaskLemmas

variable (env : WatchEnv)

/-- If every status query raises, the loop starting with counter `c` gives
up exactly when the counter reaches 10, i.e. after `10 - c` further
queries, and the recorded error is the trace of the last query. -/
lemma watchTaskLoop_all_exc (tr : Nat → String)
    (hp : ∀ i, env.poll i = .exc (tr i))
    (ht : ∀ i, env.termSignal i = false)
    (hd : ∀ i, env.deadlineExceeded i = false) :
    ∀ m k c fuel, c + m = 10 → 1 ≤ m → m ≤ fuel →
      watchTaskLoop env fuel k c = some (.errSet (tr (k + m - 1)), k + m) := by
  intro m
  induction m with
  | zero => omega
  | succ m ih =>
    intro k c fuel hcm _ hfuel
    obtain ⟨fuel, rfl⟩ : ∃ f, fuel = f + 1 := ⟨fuel - 1, by omega⟩
    rcases Nat.eq_zero_or_pos m with hm | hm
    · subst hm
      have hc : c = 9 := by omega
      subst hc
      simp [watchTaskLoop, hp k]
    · have hc : ¬ 10 ≤ c + 1 := by omega
      simp only [watchTaskLoop, hp k, hc, if_false, ht k, hd k, Bool.false_eq_true]
      have e1 : k + (m + 1) - 1 = k + 1 + m - 1 := by omega
      have e2 : k + (m + 1) = k + 1 + m := by omega
      rw [e1, e2]
      exact ih (k + 1) (c + 1) fuel (by omega) hm (by omega)

/-- If the first `m` queries (from index `k`) raise with the counter staying
below 10 and the query at index `k + m` succeeds with `is_done()` true, the
loop returns the remote-reported completion outcome after `m + 1` queries. -/
lemma watchTaskLoop_exc_then_done (tr : Nat → String) (info : TaskInfo)
    (ht : ∀ i, env.termSignal i = false)
    (hd : ∀ i, env.deadlineExceeded i = false) :
    ∀ m k c fuel, c + m ≤ 9 →
      (∀ i, i < m → env.poll (k + i) = .exc (tr (k + i))) →
      env.poll (k + m) = .ok info → info.done = true → m + 1 ≤ fuel →
      watchTaskLoop env fuel k c =
        some (.done (if info.success then none else some info.failure), k + m + 1) := by
  intro m
  induction m with
  | zero =>
    intro k c fuel _ _ hok hdone hfuel
    obtain ⟨fuel, rfl⟩ : ∃ f, fuel = f + 1 := ⟨fuel - 1, by omega⟩
    rw [Nat.add_zero] at hok
    simp [watchTaskLoop, hok, hdone]
  | succ m ih =>
    intro k c fuel hc hexc hok hdone hfuel
    obtain ⟨fuel, rfl⟩ : ∃ f, fuel = f + 1 := ⟨fuel - 1, by omega⟩
    have h0 : env.poll k = .exc (tr k) := by
      have := hexc 0 (by omega)
      simpa using this
    have hc1 : ¬ 10 ≤ c + 1 := by omega
    simp only [watchTaskLoop, h0, hc1, if_false, ht k, hd k, Bool.false_eq_true]
    have hexc' : ∀ i, i < m → env.poll (k + 1 + i) = .exc (tr (k + 1 + i)) := by
      intro i hi
      have := hexc (i + 1) (by omega)
      have e : k + (i + 1) = k + 1 + i := by omega
      rwa [e] at this
    have hok' : env.poll (k + 1 + m) = .ok info := by
      have e : k + (m + 1) = k + 1 + m := by omega
      rwa [e] at hok
    have e : k + (m + 1) + 1 = k + 1 + m + 1 := by omega
    rw [e]
    exact ih (k + 1) (c + 1) fuel (by omega) hexc' hok' hdone (by omega)

end WatchTaskLemmas

/-- C1: for `watch_task`, if every status query raises an exception (and
neither the terminate event nor the deadline fires), the watcher gives up
after exactly 10 consecutive failures, issues the cancel, and returns the
captured error of the 10th query (a non-`None` detail); if the first 9
queries raise and the 10th succeeds reporting completion with success, the
counter is reset and the watcher returns `None` after exactly 10 queries,
with no cancel. -/
theorem c1_watch_task_consecutive_failures
    (env1 env2 : WatchEnv) (tr1 tr2 : Nat → String) (info : TaskInfo)
    (fuel1 fuel2 : Nat)
    (h1p : ∀ i, env1.poll i = .exc (tr1 i))
    (h1t : ∀ i, env1.termSignal i = false)
    (h1d : ∀ i, env1.deadlineExceeded i = false)
    (h1f : 10 ≤ fuel1)
    (h2p : ∀ i, i < 9 → env2.poll i = .exc (tr2 i))
    (h2ok : env2.poll 9 = .ok info)
    (h2done : info.done = true) (h2succ : info.success = true)
    (h2t : ∀ i, env2.termSignal i = false)
    (h2d : ∀ i, env2.deadlineExceeded i = false)
    (h2f : 10 ≤ fuel2) :
    watch_task env1 fuel1 = some ⟨some (tr1 9), true, 10⟩ ∧
    watch_task env2 fuel2 = some ⟨none, false, 10⟩ := by
  constructor
  · have h := watchTaskLoop_all_exc env1 tr1 h1p h1t h1d 10 0 0 fuel1
      (by omega) (by omega) h1f
    have e : (0 : Nat) + 10 - 1 = 9 := by omega
    rw [e] at h
    simp [watch_task, h]
  · have hexc : ∀ i, i < 9 → env2.poll (0 + i) = .exc (tr2 (0 + i)) := by
      intro i hi
      simpa using h2p i hi
    have hok : env2.poll (0 + 9) = .ok info := by simpa using h2ok
    have h := watchTaskLoop_exc_then_done env2 tr2 info h2t h2d 9 0 0 fuel2
      (by omega) hexc hok h2done h2f
    simp [watch_task, h, h2succ]

/-- Environment where every status query raises. -/
def envAllFailures : WatchEnv where
  poll := fun k => .exc ("boom " ++ toString k)
  termSignal := fun _ => false
  deadlineExceeded := fun _ => false

/-- Environment where the first 9 queries raise and the 10th reports a
successfully completed task. -/
def envNineFailures : WatchEnv where
  poll := fun k => if k < 9 then .exc ("boom") else .ok ⟨2, true, true, ("")⟩
  termSignal := fun _ => false
  deadlineExceeded := fun _ => false

/-- Witness for C1 at concrete environments. -/
theorem c1_watch_task_consecutive_failures_witness :
    watch_task envAllFailures 12 = some ⟨some ("boom " ++ toString 9), true, 10⟩ ∧
    watch_task envNineFailures 12 = some ⟨none, false, 10⟩ :=
  c1_watch_task_consecutive_failures envAllFailures envNineFailures
    (fun k => "boom " ++ toString k) (fun _ => "boom") ⟨2, true, true, ""⟩ 12 12
    (fun _ => rfl) (fun _ => rfl) (fun _ => rfl) (by omega)
    (fun i hi => by simp [envNineFailures, hi]) (by simp [envNineFailures])
    rfl rfl (fun _ => rfl) (fun _ => rfl) (by omega)

/-- Environment where the first status query reports the task done and
unsuccessful, with the remote failure description. -/
def envRemoteFailure : WatchEnv where
  poll := fun _ => .ok ⟨5, true, false, ("BuildError: x86_64 build failed")⟩
  termSignal := fun _ => false
  deadlineExceeded := fun _ => false

/-- C3 counterexample: a remote-reported task failure is a terminal outcome
other than success, yet `watch_task` returns the failure detail without
reaching the cancel call (`cancelIssued = false`), refuting the claim that
every non-success terminal outcome issues a remote cancel. -/
theorem c3_no_cancel_on_remote_failure_counterexample :
    watch_task envRemoteFailure 5 =
      some ⟨some ("BuildError: x86_64 build failed"), false, 1⟩ ∧
    some ("BuildError: x86_64 build failed") ≠ (none : Option String) :=
  ⟨rfl, by simp⟩

/-- C3 amended: `watch_task` issues the remote cancel exactly when its loop
terminates by setting the `error` variable (local give-up after 10
consecutive exceptions, interruption, or timeout); on a remote-reported
completion — success or failure alike — it returns without issuing a
cancel.  In particular a successful outcome (`detail = none`) never issues
a cancel. -/
theorem c3_cancel_iff_error_path (env : WatchEnv) (fuel : Nat) (r : WatchTaskResult)
    (h : watch_task env fuel = some r) :
    (r.cancelIssued = true ↔ ∃ e n, watchTaskLoop env fuel 0 0 = some (.errSet e, n)) ∧
    (r.detail = none → r.cancelIssued = false) := by
  unfold watch_task at h
  rcases hl : watchTaskLoop env fuel 0 0 with _ | ⟨exit, n⟩
  · rw [hl] at h
    have h2 : (none : Option WatchTaskResult) = some r := h
    cases h2
  · rcases exit with d | e
    · rw [hl] at h
      have h2 : (⟨d, false, n⟩ : WatchTaskResult) = r := Option.some.inj h
      subst h2
      refine ⟨⟨?_, ?_⟩, ?_⟩
      · intro hc
        simp at hc
      · rintro ⟨e, n', he⟩
        simp at he
      · intro _
        rfl
    · rw [hl] at h
      have h2 : (⟨some e, true, n⟩ : WatchTaskResult) = r := Option.some.inj h
      subst h2
      refine ⟨⟨?_, ?_⟩, ?_⟩
      · intro _
        exact ⟨e, n, rfl⟩
      · intro _
        rfl
      · intro hd
        simp at hd

/-- Witness for the amended C3 at a concrete environment. -/
theorem c3_cancel_iff_error_path_witness :
    (((⟨some ("BuildError: x86_64 build failed"), false, 1⟩ : WatchTaskResult).cancelIssued = true ↔
      ∃ e n, watchTaskLoop envRemoteFailure 5 0 0 = some (.errSet e, n)) ∧
    ((⟨some ("BuildError: x86_64 build failed"), false, 1⟩ : WatchTaskResult).detail = none →
      (⟨some ("BuildError: x86_64 build failed"), false, 1⟩ : WatchTaskResult).cancelIssued = false)) :=
  c3_cancel_iff_error_path envRemoteFailure 5 _ rfl

/-- C9: inside `watch_task`'s loop, the done check on a successful status
query precedes the deadline check: when query `k` reports completion the
loop returns the remote completion outcome (`None` on success, the remote
failure detail otherwise) even though `time.time() > end` already holds at
that boundary, and no timeout outcome is produced. -/
theorem c9_done_check_precedes_deadline (env : WatchEnv) (k c fuel : Nat) (info : TaskInfo)
    (hp : env.poll k = .ok info) (hdone : info.done = true)
    (_hdl : env.deadlineExceeded k = true) :
    watchTaskLoop env (fuel + 1) k c =
      some (.done (if info.success then none else some info.failure), k + 1) := by
  simp [watchTaskLoop, hp, hdone]

/-- Environment where the task completes successfully on the first query
while the deadline has already elapsed. -/
def envDoneAtDeadline : WatchEnv where
  poll := fun _ => .ok ⟨3, true, true, ("")⟩
  termSignal := fun _ => false
  deadlineExceeded := fun _ => true

/-- Witness for C9 at a concrete environment. -/
theorem c9_done_check_precedes_deadline_witness :
    watchTaskLoop envDoneAtDeadline 1 0 0 = some (.done none, 1) := by
  have h := c9_done_check_precedes_deadline envDoneAtDeadline 0 0 0
    ⟨3, true, true, ""⟩ rfl rfl rfl
  simpa using h

/-- C10: at each poll boundary of `watch_task`'s loop — arbitrary query
index `k` and counter `c`, reached either through a successful query that
reports the task not yet done, or through a caught exception with the
counter staying below 10 — when the terminate event fires, the loop exits
with the error variable set to exactly "Interrupted", even though the
deadline is also exceeded at that boundary (and via `watch_task`'s errSet
branch the returned detail is that string, with the cancel issued). -/
theorem c10_interrupt_precedes_timeout (env : WatchEnv) (k c fuel : Nat)
    (hterm : env.termSignal k = true) (_hdl : env.deadlineExceeded k = true) :
    (∀ info : TaskInfo, env.poll k = .ok info → info.done = false →
      watchTaskLoop env (fuel + 1) k c = some (.errSet ("Interrupted"), k + 1)) ∧
    (∀ tr : String, env.poll k = .exc tr → c + 1 < 10 →
      watchTaskLoop env (fuel + 1) k c = some (.errSet ("Interrupted"), k + 1)) := by
  constructor
  · intro info hp hnotdone
    simp [watchTaskLoop, hp, hnotdone, hterm]
  · intro tr hp hc
    have hlt : ¬ 10 ≤ c + 1 := by omega
    simp [watchTaskLoop, hp, hlt, hterm]

/-- Environment where both the terminate event and the deadline fire at
every poll boundary, the first query reporting a not-yet-done task and the
later ones raising. -/
def envBothSignals : WatchEnv where
  poll := fun k => if k = 0 then .ok ⟨1, false, false, ("")⟩ else .exc ("boom")
  termSignal := fun _ => true
  deadlineExceeded := fun _ => true

/-- Witness for C10 at concrete boundaries of `envBothSignals`: the first
boundary is reached through an ok-not-done query, a later one (counter 3)
through a caught exception. -/
theorem c10_interrupt_precedes_timeout_witness :
    watchTaskLoop envBothSignals 1 0 0 = some (.errSet ("Interrupted"), 1) ∧
    watchTaskLoop envBothSignals 1 1 3 = some (.errSet ("Interrupted"), 2) :=
  ⟨(c10_interrupt_precedes_timeout envBothSignals 0 0 0 rfl rfl).1
      ⟨1, false, false, ""⟩ rfl rfl,
   (c10_interrupt_precedes_timeout envBothSignals 1 3 0 rfl rfl).2
      ("boom") rfl (by omega)⟩

/-- An exception a wrapped koji invocation may raise:
`connectionError` models `requests.exceptions.ConnectionError` (the only
class caught by the retry loop); `other` models every other exception,
which the bare `except requests.exceptions.ConnectionError` clause does not
catch, so it propagates out of the wrapper immediately. -/
inductive KojiExc where
  | connectionError (msg : String)
  | other (msg : String)
deriving Repr, DecidableEq

/-- Outcome of one attempt of the wrapped call `self.__wrapped__(*args)`. -/
inductive CallAttempt (α : Type) where
  | ok (v : α)
  | raised (e : KojiExc)
deriving Repr, DecidableEq

/-- The `while retries > 0` loop of `KojiWrapper.__call__`.  `f i` is the
outcome of attempt `i` (0-indexed); `retries` is the current value of the
Python variable.  A normal return or a propagated exception is `some`; the
`none` outcome models the loop falling through with `retries == 0`, which
returns Python `None` implicitly (unreachable from `retries = 4` since the
final `ConnectionError` is re-raised when the counter hits zero).  The
second component counts the attempts actually made. -/
def kojiCallLoop (f : Nat → CallAttempt α) : Nat → Nat → Option (Except KojiExc α) × Nat
  | 0, i => (none, i)
  | retries + 1, i =>
    match f i with
    | .ok v => (some (.ok v), i + 1)
    | .raised (.connectionError m) =>
      if retries = 0 then
        (some (.error (.connectionError m)), i + 1)
      else
        kojiCallLoop f retries (i + 1)
    | .raised (.other m) => (some (.error (.other m)), i + 1)

/-- `KojiWrapper.__call__` of brew.py: run the wrapped call with
`retries = 4`. -/
def kojiWrapperCall (f : Nat → CallAttempt α) : Option (Except KojiExc α) × Nat :=
  kojiCallLoop f 4 0

/-- C4: the retry wrapper returns the success result when attempts 1-3
raise a transient connection error and attempt 4 succeeds; it propagates
the attempt-4 connection error unchanged when all 4 attempts raise
transiently; and it propagates any non-transient error immediately, after
a single attempt and with no retry. -/
theorem c4_koji_wrapper_retries (α : Type) (f g h : Nat → CallAttempt α)
    (m : Nat → String) (v : α) (w : String)
    (hf : ∀ i, i < 3 → f i = .raised (.connectionError (m i)))
    (hf4 : f 3 = .ok v)
    (hg : ∀ i, i < 4 → g i = .raised (.connectionError (m i)))
    (hh : h 0 = .raised (.other w)) :
    kojiWrapperCall f = (some (.ok v), 4) ∧
    kojiWrapperCall g = (some (.error (.connectionError (m 3))), 4) ∧
    kojiWrapperCall h = (some (.error (.other w)), 1) := by
  refine ⟨?_, ?_, ?_⟩
  · have h0 := hf 0 (by omega)
    have h1 := hf 1 (by omega)
    have h2 := hf 2 (by omega)
    simp [kojiWrapperCall, kojiCallLoop, h0, h1, h2, hf4]
  · have h0 := hg 0 (by omega)
    have h1 := hg 1 (by omega)
    have h2 := hg 2 (by omega)
    have h3 := hg 3 (by omega)
    simp [kojiWrapperCall, kojiCallLoop, h0, h1, h2, h3]
  · simp [kojiWrapperCall, kojiCallLoop, hh]

/-- Concrete attempt sequences for the three C4 scenarios. -/
def attemptsThenOk : Nat → CallAttempt Nat :=
  fun i => if i < 3 then .raised (.connectionError ("reset " ++ toString i)) else .ok 42

/-- Concrete attempt sequence that raises transiently on every attempt. -/
def attemptsAllFail : Nat → CallAttempt Nat :=
  fun i => .raised (.connectionError ("reset " ++ toString i))

/-- Concrete attempt sequence that raises a non-transient error at once. -/
def attemptsFault : Nat → CallAttempt Nat :=
  fun _ => .raised (.other ("koji.GenericError"))

/-- Witness for C4 at concrete attempt sequences. -/
theorem c4_koji_wrapper_retries_witness :
    kojiWrapperCall attemptsThenOk = (some (.ok 42), 4) ∧
    kojiWrapperCall attemptsAllFail =
      (some (.error (.connectionError ("reset " ++ toString 3))), 4) ∧
    kojiWrapperCall attemptsFault = (some (.error (.other ("koji.GenericError"))), 1) :=
  c4_koji_wrapper_retries Nat attemptsThenOk attemptsAllFail attemptsFault
    (fun i => "reset " ++ toString i) 42 ("koji.GenericError")
    (fun i hi => by simp [attemptsThenOk, hi])
    (by simp [attemptsThenOk])
    (fun i _ => rfl) rfl

/-- Environment of `watch_tasks`: `poll t tid` is the outcome of the status
query for task `tid` during loop iteration `t`; `termSignal t` and
`deadlineExceeded t` are the terminate-event wait result and the
`time.time() > end` test at the end of iteration `t`. -/
structure MultiEnv where
  poll : Nat → Nat → PollResult
  termSignal : Nat → Bool
  deadlineExceeded : Nat → Bool

/-- Python dict assignment `d[k] = v` on an insertion-ordered association
list: replace the value at an existing key, else append at the end. -/
def dictSet : List (Nat × Option String) → Nat → Option String → List (Nat × Option String)
  | [], k, v => [(k, v)]
  | (k0, v0) :: rest, k, v =>
    if k0 = k then (k, v) :: rest else (k0, v0) :: dictSet rest k v

/-- Mutable state of the `watch_tasks` loop: the `tasks_to_poll` set, the
`tasks_to_cancel` set (both kept as insertion-ordered lists), the `errors`
dict and the `except_counts` dict. -/
structure MultiState where
  tasksToPoll : List Nat
  tasksToCancel : List Nat
  errors : List (Nat × Option String)
  exceptCounts : Nat → Nat

/-- The `for task_id in tasks_to_poll.copy()` body of `watch_tasks`: one
status query per task still being polled, with the same reset / increment /
give-up-at-10 policy as `watch_task`, applied independently per task.  A
task reaching a terminal state (remote completion, or local give-up) is
removed from `tasks_to_poll`; only the give-up path adds it to
`tasks_to_cancel`. -/
def stepTasks (env : MultiEnv) (t : Nat) : List Nat → MultiState → MultiState
  | [], s => s
  | tid :: rest, s =>
    match env.poll t tid with
    | .ok info =>
      let s1 := { s with exceptCounts := fun x => if x = tid then 0 else s.exceptCounts x }
      if info.done then
        stepTasks env t rest { s1 with
          errors := dictSet s1.errors tid (if info.success then none else some info.failure),
          tasksToPoll := s1.tasksToPoll.erase tid }
      else
        stepTasks env t rest s1
    | .exc tr =>
      let n := s.exceptCounts tid + 1
      let s1 := { s with exceptCounts := fun x => if x = tid then n else s.exceptCounts x }
      if 10 ≤ n then
        stepTasks env t rest { s1 with
          errors := dictSet s1.errors tid (some tr),
          tasksToCancel := s1.tasksToCancel ++ [tid],
          tasksToPoll := s1.tasksToPoll.erase tid }
      else
        stepTasks env t rest s1

/-- The `while True` loop of `watch_tasks`.  After processing every task of
the current polling set, the loop breaks when the set is empty, when the
terminate event fires (remaining tasks marked Interrupted and added to
`tasks_to_cancel`, with `tasks_to_poll` left as is), or when the deadline
is exceeded (same, with the timeout detail). -/
def watchTasksLoop (env : MultiEnv) : Nat → Nat → MultiState → Option MultiState
  | 0, _, _ => none
  | fuel + 1, t, s =>
    let s1 := stepTasks env t s.tasksToPoll s
    if s1.tasksToPoll = [] then some s1
    else if env.termSignal t then
      some { s1 with
        tasksToCancel := s1.tasksToCancel ++ s1.tasksToPoll,
        errors := s1.tasksToPoll.foldl
          (fun es tid => dictSet es tid (some ("Interrupted"))) s1.errors }
    else if env.deadlineExceeded t then
      some { s1 with
        tasksToCancel := s1.tasksToCancel ++ s1.tasksToPoll,
        errors := s1.tasksToPoll.foldl
          (fun es tid => dictSet es tid (some ("Timeout watching task"))) s1.errors }
    else
      watchTasksLoop env fuel (t + 1) s1

/-- What `watch_tasks` does after its loop: `retNone` is the bare `return`
taken on an empty task list (Python `None`, not a mapping); `ret errors`
returns the errors dict; `typeError` is an exception escaping the call. -/
inductive WatchTasksOutcome where
  | retNone
  | ret (errors : List (Nat × Option String))
  | typeError
deriving Repr, DecidableEq

/-- Result of `watch_tasks`: the outcome and the list of
`session.cancelTask` calls actually issued during cleanup. -/
structure WatchTasksResult where
  outcome : WatchTasksOutcome
  cancelCalls : List Nat
deriving Repr, DecidableEq

/-- Key set of a Python dict populated by `for task_id in task_ids:
watchers[task_id] = ...`: unique keys in first-insertion order. -/
def pyDictKeys (l : List Nat) : List Nat :=
  l.foldl (fun acc t => if t ∈ acc then acc else acc ++ [t]) []

/-- `watch_tasks` of brew.py.  The cleanup block `if tasks_to_cancel:`
begins with `log_f(errors + ", canceling builds")`; `errors` is a dict, so
the `+` with a string raises `TypeError` before the `session.cancelTask`
loop is ever reached — whenever any task was marked for cancellation the
function raises and issues zero cancel calls.  (The cancel loop is further
written over `tasks_to_poll`, not `tasks_to_cancel`, but it is unreachable.) -/
def watch_tasks (env : MultiEnv) (task_ids : List Nat) (fuel : Nat) :
    Option WatchTasksResult :=
  if task_ids = [] then some ⟨.retNone, []⟩
  else
    match watchTasksLoop env fuel 0 ⟨pyDictKeys task_ids, [], [], fun _ => 0⟩ with
    | none => none
    | some s =>
      if s.tasksToCancel = [] then some ⟨.ret s.errors, []⟩
      else some ⟨.typeError, []⟩

/-- Environment with a single never-finishing task interrupted in the first
iteration. -/
def envMultiInterrupted : MultiEnv where
  poll := fun _ _ => .ok ⟨1, false, false, ("")⟩
  termSignal := fun t => t == 0
  deadlineExceeded := fun _ => false

/-- C2 (code bug): task 7 is interrupted, so its outcome is not success and
it is in `tasks_to_cancel`; yet `watch_tasks` raises `TypeError` out of the
cleanup phase (from `errors + ", canceling builds"`) and issues no
`cancelTask` call at all, contradicting the claim that every non-success
task is cancelled and that cleanup never raises. -/
theorem c2_cleanup_raises_type_error :
    watch_tasks envMultiInterrupted [7] 2 = some ⟨.typeError, []⟩ ∧
    (watchTasksLoop envMultiInterrupted 2 0 ⟨pyDictKeys [7], [], [], fun _ => 0⟩).map
      (fun s => s.tasksToCancel) = some [7] :=
  ⟨rfl, rfl⟩

/-- Environment with a single never-finishing task whose deadline expires
during the first iteration. -/
def envMultiTimeout : MultiEnv where
  poll := fun _ _ => .ok ⟨1, false, false, ("")⟩
  termSignal := fun _ => false
  deadlineExceeded := fun t => t == 0

/-- C5 (code bug): for task list [5] whose task times out, the loop does
record the expected per-task mapping `{5: "Timeout watching task"}`, but
`watch_tasks` then raises `TypeError` out of the cleanup phase instead of
returning any mapping, contradicting the claim that a mapping with one
entry per submitted task id is returned for every list of task ids. -/
theorem c5_no_mapping_returned_on_timeout :
    (watchTasksLoop envMultiTimeout 2 0 ⟨pyDictKeys [5], [], [], fun _ => 0⟩).map
      (fun s => s.errors) = some [(5, some ("Timeout watching task"))] ∧
    watch_tasks envMultiTimeout [5] 2 = some ⟨.typeError, []⟩ :=
  ⟨rfl, rfl⟩

/-- `get_build_objects` of brew.py: one `getBuild` sub-request per element
of a multicall, results fanned back out positionally (`m` is the remote's
answer to one sub-request). -/
def get_build_objects (m : β → α) (ids_or_nvrs : List β) : List α :=
  ids_or_nvrs.map m

/-- `get_tagged_builds` of brew.py: one `listTagged` sub-request per tag
(the `task.result if task else None` guard never sees a `None` task since a
request is enqueued for every tag; the event and build-type arguments are
folded into the oracle `m`). -/
def get_tagged_builds (m : String → α) (tags : List String) : List (Option α) :=
  tags.map (fun tag => some (m tag))

/-- `list_image_rpms` of brew.py: one `listRPMs(imageID=...)` sub-request
per image id. -/
def list_image_rpms (m : Nat → α) (image_ids : List Nat) : List α :=
  image_ids.map m

/-- `list_build_rpms` of brew.py: one `listBuildRPMs` sub-request per
build id. -/
def list_build_rpms (m : β → α) (build_ids : List β) : List α :=
  build_ids.map m

/-- `get_builds_tags` of brew.py: one `listTags` sub-request per nvr. -/
def get_builds_tags (m : β → α) (build_nvrs : List β) : List α :=
  build_nvrs.map m

/-- The `tasks` list built by `get_latest_builds`: `None` appended for a
falsy tag (empty string) without enqueueing a sub-request, otherwise the
enqueued `getLatestBuilds` request for the (tag, component) pair. -/
def glbTasks (pairs : List (String × String)) : List (Option (String × String)) :=
  pairs.map (fun p => if p.1 = "" then none else some p)

/-- `get_latest_builds` of brew.py: `[task.result if task else None for
task in tasks]` over `glbTasks` (`m` answers one `getLatestBuilds`
sub-request; the event and build-type arguments are folded into it). -/
def get_latest_builds (m : String → String → α) (pairs : List (String × String)) :
    List (Option α) :=
  (glbTasks pairs).map (fun t => t.map (fun p => m p.1 p.2))

/-- An archive record after `list_archives_by_builds` assigned its "rpms"
field: the archive id it was keyed by, and the RPM list looked up for it. -/
structure Archive where
  id : Nat
  rpms : List Nat
deriving Repr, DecidableEq

/-- The `tasks` list built by `list_archives_by_builds`: `None` for a falsy
build id (0) without enqueueing a sub-request, otherwise the archive-id
list `listArchives(buildID=...)` returns for the build. -/
def labTasks (la : Nat → List Nat) (build_ids : List Nat) : List (Option (List Nat)) :=
  build_ids.map (fun b => if b = 0 then none else some (la b))

/-- The comprehension `[ar for rec in archives_list for ar in rec or []]`. -/
def flattenArchives : List (Option (List Nat)) → List Nat
  | [] => []
  | rec :: rest => rec.getD [] ++ flattenArchives rest

/-- The `for archive, rpms in zip(archives, archives_rpms)` mutation of
`list_archives_by_builds`, replayed purely: walk the nested archive lists
and consume the flat RPM-result list positionally, assigning each archive
its "rpms" entry. -/
def attachRpms : List (Option (List Nat)) → List (List Nat) → List (Option (List Archive))
  | [], _ => []
  | none :: rest, rs => none :: attachRpms rest rs
  | some aids :: rest, rs =>
    some ((aids.zip (rs.take aids.length)).map (fun p => ⟨p.1, p.2⟩)) ::
      attachRpms rest (rs.drop aids.length)

/-- `list_archives_by_builds` of brew.py: the batched archive lookup
followed by the secondary batched RPM lookup keyed by archive id (`la` is
the remote answer to `listArchives`, `lr` to `listRPMs`). -/
def list_archives_by_builds (la lr : Nat → List Nat) (build_ids : List Nat) :
    List (Option (List Archive)) :=
  let archives_list := labTasks la build_ids
  let archives := flattenArchives archives_list
  let archives_rpms := list_image_rpms lr archives
  attachRpms archives_list archives_rpms

lemma zip_self_map (g : Nat → List Nat) :
    ∀ l : List Nat, (l.zip (l.map g)).map (fun p => (⟨p.1, p.2⟩ : Archive)) =
      l.map (fun a => (⟨a, g a⟩ : Archive)) := by
  intro l
  induction l with
  | nil => rfl
  | cons a l ih => simp [ih]

lemma attachRpms_flatten (lr : Nat → List Nat) :
    ∀ al : List (Option (List Nat)),
      attachRpms al ((flattenArchives al).map lr) =
        al.map (fun rec => rec.map (fun aids =>
          aids.map (fun a => (⟨a, lr a⟩ : Archive)))) := by
  intro al
  induction al with
  | nil => rfl
  | cons rec rest ih =>
    cases rec with
    | none => simpa [flattenArchives, attachRpms] using ih
    | some aids =>
      have hlen : (aids.map lr).length = aids.length := List.length_map aids lr
      have htake : ((aids.map lr) ++ (flattenArchives rest).map lr).take aids.length
          = aids.map lr := by
        rw [← hlen]
        exact List.take_left (aids.map lr) ((flattenArchives rest).map lr)
      have hdrop : ((aids.map lr) ++ (flattenArchives rest).map lr).drop aids.length
          = (flattenArchives rest).map lr := by
        rw [← hlen]
        exact List.drop_left (aids.map lr) ((flattenArchives rest).map lr)
      simp [flattenArchives, attachRpms, htake, hdrop, ih, zip_self_map]

/-- The two-phase batched join of `list_archives_by_builds` is equivalent
to augmenting each archive id with its RPM lookup in place. -/
lemma list_archives_by_builds_eq (la lr : Nat → List Nat) (build_ids : List Nat) :
    list_archives_by_builds la lr build_ids =
      build_ids.map (fun b =>
        if b = 0 then none
        else some ((la b).map (fun a => (⟨a, lr a⟩ : Archive)))) := by
  simp only [list_archives_by_builds]
  have h1 : list_image_rpms lr (flattenArchives (labTasks la build_ids))
      = (flattenArchives (labTasks la build_ids)).map lr := rfl
  rw [h1, attachRpms_flatten lr (labTasks la build_ids)]
  unfold labTasks
  rw [List.map_map]
  apply List.map_congr_left
  intro b _
  by_cases hb : b = 0 <;> simp [hb]

/-- C6: every batch-query helper returns one output per input, in input
order: for each of the seven helpers, `output[i]` is the (sub-request)
result for `input[i]`, and the lengths agree; for the two helpers that
skip falsy inputs (`get_latest_builds` over empty tags,
`list_archives_by_builds` over build id 0) the element at every position
`i` is `None` exactly when input `i` is falsy — with no sub-request
enqueued in the `tasks` list at that position — and the result for input
`i` otherwise.  Stated positionally through `[i]?`, which also forces the
lengths to agree. -/
theorem c6_batch_query_positional (α β : Type)
    (mb : β → α) (objs : List β)
    (mt : String → α) (tags : List String)
    (mi : Nat → α) (imgs : List Nat)
    (mbr : β → α) (brpms : List β)
    (mbt : β → α) (nvrs : List β)
    (mg : String → String → α) (pairs : List (String × String))
    (la lr : Nat → List Nat) (build_ids : List Nat) :
    (get_build_objects mb objs).length = objs.length ∧
    (∀ i : Nat, (get_build_objects mb objs)[i]? = (objs[i]?).map mb) ∧
    (get_tagged_builds mt tags).length = tags.length ∧
    (∀ i : Nat, (get_tagged_builds mt tags)[i]? =
      (tags[i]?).map (fun tag => some (mt tag))) ∧
    (list_image_rpms mi imgs).length = imgs.length ∧
    (∀ i : Nat, (list_image_rpms mi imgs)[i]? = (imgs[i]?).map mi) ∧
    (list_build_rpms mbr brpms).length = brpms.length ∧
    (∀ i : Nat, (list_build_rpms mbr brpms)[i]? = (brpms[i]?).map mbr) ∧
    (get_builds_tags mbt nvrs).length = nvrs.length ∧
    (∀ i : Nat, (get_builds_tags mbt nvrs)[i]? = (nvrs[i]?).map mbt) ∧
    (get_latest_builds mg pairs).length = pairs.length ∧
    (∀ i : Nat, (get_latest_builds mg pairs)[i]? =
      (pairs[i]?).map (fun p => if p.1 = "" then none else some (mg p.1 p.2))) ∧
    (∀ i : Nat, (glbTasks pairs)[i]? =
      (pairs[i]?).map (fun p => if p.1 = "" then none else some p)) ∧
    (list_archives_by_builds la lr build_ids).length = build_ids.length ∧
    (∀ i : Nat, (list_archives_by_builds la lr build_ids)[i]? =
      (build_ids[i]?).map (fun b =>
        if b = 0 then none
        else some ((la b).map (fun a => (⟨a, lr a⟩ : Archive))))) ∧
    (∀ i : Nat, (labTasks la build_ids)[i]? =
      (build_ids[i]?).map (fun b => if b = 0 then none else some (la b))) := by
  refine ⟨?_, ?_, ?_, ?_, ?_, ?_, ?_, ?_, ?_, ?_, ?_, ?_, ?_, ?_, ?_, ?_⟩
  · simp [get_build_objects]
  · intro i
    simp [get_build_objects, List.getElem?_map]
  · simp [get_tagged_builds]
  · intro i
    simp [get_tagged_builds, List.getElem?_map]
  · simp [list_image_rpms]
  · intro i
    simp [list_image_rpms, List.getElem?_map]
  · simp [list_build_rpms]
  · intro i
    simp [list_build_rpms, List.getElem?_map]
  · simp [get_builds_tags]
  · intro i
    simp [get_builds_tags, List.getElem?_map]
  · simp [get_latest_builds, glbTasks]
  · intro i
    simp only [get_latest_builds, glbTasks, List.getElem?_map]
    cases hp : pairs[i]? with
    | none => rfl
    | some p =>
      by_cases h : p.1 = "" <;> simp [h]
  · intro i
    simp [glbTasks, List.getElem?_map]
  · rw [list_archives_by_builds_eq]
    simp
  · intro i
    rw [list_archives_by_builds_eq]
    simp [List.getElem?_map]
  · intro i
    simp [labTasks, List.getElem?_map]

/-- A tag-history event as returned by koji's `tagHistory` API: its
creation-event ordinal plus opaque event metadata. -/
structure TagChange where
  create_event : Nat
  payload : String
deriving Repr, DecidableEq

/-- `latest_tag_change_cache.get(tid, None)` on the insertion-ordered
dict, modelled as an association list. -/
def cacheGet : List (Nat × List TagChange) → Nat → Option (List TagChange)
  | [], _ => none
  | (k, v) :: rest, t => if k = t then some v else cacheGet rest t

/-- The per-tag body `if tag_changes: tag_change = tag_changes[0]; ... if
tag_change_event_id > build_event_id: result.append(tag_change)`: the
contribution of one tag's (cached) history to `result`. -/
def hitList (buildEvent : Nat) : List TagChange → List TagChange
  | [] => []
  | tc :: _ => if buildEvent < tc.create_event then [tc] else []

/-- The `for tid in tag_ids` loop of `tags_changed_since_build`.  `th tid`
is what `koji_client.tagHistory(tag=tid, queryOpts={'limit': 1})` returns
for `tid`.  Returns the accumulated `result` list, the final cache, and the
list of tag ids for which a remote fetch was issued, in order. -/
def tcsbGo (th : Nat → List TagChange) (buildEvent : Nat) :
    List Nat → List (Nat × List TagChange) →
    List TagChange × List (Nat × List TagChange) × List Nat
  | [], c => ([], c, [])
  | tid :: rest, c =>
    match cacheGet c tid with
    | some changes =>
      let r := tcsbGo th buildEvent rest c
      (hitList buildEvent changes ++ r.1, r.2.1, r.2.2)
    | none =>
      let changes := th tid
      let r := tcsbGo th buildEvent rest (c ++ [(tid, changes)])
      (hitList buildEvent changes ++ r.1, r.2.1, tid :: r.2.2)

/-- `tags_changed_since_build` of brew.py, with `buildEvent` standing for
`build['creation_event_id']` and `cache` for the process-wide
`latest_tag_change_cache` at call time. -/
def tags_changed_since_build (th : Nat → List TagChange) (buildEvent : Nat)
    (tag_ids : List Nat) (cache : List (Nat × List TagChange)) :
    List TagChange × List (Nat × List TagChange) × List Nat :=
  tcsbGo th buildEvent tag_ids cache

/-- Modelled from the claim's words: the tag-change history effectively in
force for `tid` — the cached entry when present, otherwise the remote
answer. -/
def effChanges (th : Nat → List TagChange) (c0 : List (Nat × List TagChange))
    (tid : Nat) : List TagChange :=
  (cacheGet c0 tid).getD (th tid)

/-- The most-recent record of a history, when its creation-event ordinal is
strictly greater than the build event; `none` for an empty history or an
ordinal that is equal or smaller. -/
def firstQualifying (b : Nat) : List TagChange → Option TagChange
  | [] => none
  | tc :: _ => if b < tc.create_event then some tc else none

/-- Modelled from the claim's words: the contribution of tag `tid` to the
result of `tags_changed_since_build`. -/
def changedSpec (th : Nat → List TagChange) (c0 : List (Nat × List TagChange))
    (b : Nat) (tid : Nat) : Option TagChange :=
  firstQualifying b (effChanges th c0 tid)

lemma hitList_eq_toList (b : Nat) (l : List TagChange) :
    hitList b l = (firstQualifying b l).toList := by
  cases l with
  | nil => rfl
  | cons tc rest =>
    dsimp [hitList, firstQualifying]
    split <;> rfl

lemma cacheGet_append_single (c : List (Nat × List TagChange))
    (k t : Nat) (w : List TagChange) :
    cacheGet (c ++ [(k, w)]) t =
      match cacheGet c t with
      | some v => some v
      | none => if k = t then some w else none := by
  induction c with
  | nil => simp [cacheGet]
  | cons p rest ih =>
    obtain ⟨k0, v0⟩ := p
    by_cases h : k0 = t
    · simp [cacheGet, h]
    · simp only [List.cons_append, cacheGet, if_neg h]
      exact ih

lemma tcsbGo_result (th : Nat → List TagChange) (b : Nat) :
    ∀ (ids : List Nat) (c c0 : List (Nat × List TagChange)),
      (∀ t v, cacheGet c0 t = some v → cacheGet c t = some v) →
      (∀ t v, cacheGet c t = some v → v = effChanges th c0 t) →
      (tcsbGo th b ids c).1 = ids.filterMap (fun tid => changedSpec th c0 b tid) := by
  intro ids
  induction ids with
  | nil => intro c c0 _ _; rfl
  | cons tid rest ih =>
    intro c c0 hExt hCons
    cases hcg : cacheGet c tid with
    | some v =>
      simp only [tcsbGo, hcg]
      rw [ih c c0 hExt hCons, List.filterMap_cons, hitList_eq_toList]
      have hspec : changedSpec th c0 b tid = firstQualifying b v := by
        rw [changedSpec, ← hCons tid v hcg]
      rw [hspec]
      cases firstQualifying b v <;> simp
    | none =>
      have hc0 : cacheGet c0 tid = none := by
        cases h0 : cacheGet c0 tid with
        | none => rfl
        | some v =>
          have := hExt tid v h0
          rw [hcg] at this
          cases this
      have heff : effChanges th c0 tid = th tid := by
        simp [effChanges, hc0]
      simp only [tcsbGo, hcg]
      have hExt1 : ∀ t v, cacheGet c0 t = some v →
          cacheGet (c ++ [(tid, th tid)]) t = some v := by
        intro t v h
        rw [cacheGet_append_single, hExt t v h]
      have hCons1 : ∀ t v, cacheGet (c ++ [(tid, th tid)]) t = some v →
          v = effChanges th c0 t := by
        intro t v h
        rw [cacheGet_append_single] at h
        cases hc : cacheGet c t with
        | some w =>
          rw [hc] at h
          cases h
          exact hCons t v hc
        | none =>
          rw [hc] at h
          by_cases he : tid = t
          · subst he
            rw [if_pos rfl] at h
            cases h
            rw [heff]
          · rw [if_neg he] at h
            cases h
      rw [ih (c ++ [(tid, th tid)]) c0 hExt1 hCons1, List.filterMap_cons,
        hitList_eq_toList]
      have hspec : changedSpec th c0 b tid = firstQualifying b (th tid) := by
        rw [changedSpec, heff]
      rw [hspec]
      cases firstQualifying b (th tid) <;> simp

/-- C7: `tags_changed_since_build` returns exactly, in order, the cached
most-recent tag-change records whose `create_event` ordinal is strictly
greater than the build's `creation_event_id`; a tag whose effective
(cached-or-fetched) record has an equal or smaller ordinal, or whose
history is empty, contributes nothing — so the result is empty when no tag
qualifies. -/
theorem c7_tags_changed_strictly_greater (th : Nat → List TagChange) (b : Nat)
    (tag_ids : List Nat) (cache : List (Nat × List TagChange)) :
    (tags_changed_since_build th b tag_ids cache).1 =
      tag_ids.filterMap (fun tid => changedSpec th cache b tid) :=
  tcsbGo_result th b tag_ids cache cache (fun _ _ h => h)
    (fun t v h => by simp [effChanges, h])

lemma tcsbGo_cache_none (th : Nat → List TagChange) (b : Nat) :
    ∀ (ids : List Nat) (c : List (Nat × List TagChange)) (t : Nat),
      cacheGet (tcsbGo th b ids c).2.1 t = none ↔
        (cacheGet c t = none ∧ t ∉ ids) := by
  intro ids
  induction ids with
  | nil => intro c t; simp [tcsbGo]
  | cons tid rest ih =>
    intro c t
    cases hcg : cacheGet c tid with
    | some v =>
      simp only [tcsbGo, hcg]
      rw [ih c t]
      by_cases hn : cacheGet c t = none
      · have hne : ¬ t = tid := by
          intro h
          rw [h, hcg] at hn
          cases hn
        simp [List.mem_cons, hn, hne]
      · simp [hn]
    | none =>
      simp only [tcsbGo, hcg]
      rw [ih (c ++ [(tid, th tid)]) t, cacheGet_append_single]
      cases hc : cacheGet c t with
      | some w => simp
      | none =>
        by_cases he : tid = t
        · subst he
          simp
        · have hne : ¬ t = tid := fun h => he h.symm
          simp [List.mem_cons, he, hne]

lemma tcsbGo_cache_mono (th : Nat → List TagChange) (b : Nat) :
    ∀ (ids : List Nat) (c : List (Nat × List TagChange)) (t : Nat)
      (v : List TagChange), cacheGet c t = some v →
      cacheGet (tcsbGo th b ids c).2.1 t = some v := by
  intro ids
  induction ids with
  | nil => intro c t v hv; simpa [tcsbGo] using hv
  | cons tid rest ih =>
    intro c t v hv
    cases hcg : cacheGet c tid with
    | some w =>
      simp only [tcsbGo, hcg]
      exact ih c t v hv
    | none =>
      simp only [tcsbGo, hcg]
      apply ih
      rw [cacheGet_append_single, hv]

lemma tcsbGo_count (th : Nat → List TagChange) (b : Nat) :
    ∀ (ids : List Nat) (c : List (Nat × List TagChange)) (t : Nat),
      ((tcsbGo th b ids c).2.2).count t =
        if t ∈ ids ∧ cacheGet c t = none then 1 else 0 := by
  intro ids
  induction ids with
  | nil => intro c t; simp [tcsbGo]
  | cons tid rest ih =>
    intro c t
    cases hcg : cacheGet c tid with
    | some v =>
      simp only [tcsbGo, hcg]
      rw [ih c t]
      by_cases hn : cacheGet c t = none
      · have hne : ¬ t = tid := by
          intro h
          rw [h, hcg] at hn
          cases hn
        simp [List.mem_cons, hn, hne]
      · simp [hn]
    | none =>
      simp only [tcsbGo, hcg, List.count_cons]
      rw [ih (c ++ [(tid, th tid)]) t]
      rw [cacheGet_append_single]
      by_cases he : t = tid
      · subst he
        rw [hcg]
        simp [hcg]
      · have he' : ¬ tid = t := fun h => he h.symm
        cases hc : cacheGet c t with
        | some w => simp [he, he', List.mem_cons]
        | none => simp [he, he', List.mem_cons]

/-- A sequence of `tags_changed_since_build` calls within one process,
threading the shared `latest_tag_change_cache`: each query is a pair of the
build's creation event and its tag-id list.  Returns the final cache and
the per-call remote-fetch logs. -/
def runQueries (th : Nat → List TagChange) :
    List (Nat × List Nat) → List (Nat × List TagChange) →
    List (Nat × List TagChange) × List (List Nat)
  | [], c => (c, [])
  | q :: rest, c =>
    let r := tags_changed_since_build th q.1 q.2 c
    let s := runQueries th rest r.2.1
    (s.1, r.2.2 :: s.2)

/-- All tag ids mentioned across a sequence of queries, in order. -/
def mentionsOf (qs : List (Nat × List Nat)) : List Nat :=
  qs.foldr (fun q acc => q.2 ++ acc) []

/-- Concatenation of the per-call fetch logs. -/
def allLogs (ls : List (List Nat)) : List Nat :=
  ls.foldr (fun l acc => l ++ acc) []

lemma runQueries_count (th : Nat → List TagChange) :
    ∀ (qs : List (Nat × List Nat)) (c : List (Nat × List TagChange)) (t : Nat),
      (allLogs (runQueries th qs c).2).count t =
        if t ∈ mentionsOf qs ∧ cacheGet c t = none then 1 else 0 := by
  intro qs
  induction qs with
  | nil => intro c t; simp [runQueries, allLogs, mentionsOf]
  | cons q rest ih =>
    intro c t
    simp only [runQueries, tags_changed_since_build, mentionsOf, allLogs,
      List.foldr_cons, List.count_append]
    rw [tcsbGo_count th q.1 q.2 c t]
    have ihr := ih (tcsbGo th q.1 q.2 c).2.1 t
    simp only [allLogs] at ihr
    rw [ihr]
    simp only [tcsbGo_cache_none th q.1 q.2 c t]
    by_cases hn : cacheGet c t = none
    · by_cases hm1 : t ∈ q.2
      · simp [hn, hm1, List.mem_append, mentionsOf]
      · simp [hn, hm1, List.mem_append, mentionsOf]
    · simp [hn, mentionsOf]

lemma runQueries_cache_mono (th : Nat → List TagChange) :
    ∀ (qs : List (Nat × List Nat)) (c : List (Nat × List TagChange))
      (t : Nat) (v : List TagChange), cacheGet c t = some v →
      cacheGet (runQueries th qs c).1 t = some v := by
  intro qs
  induction qs with
  | nil => intro c t v hv; simpa [runQueries] using hv
  | cons q rest ih =>
    intro c t v hv
    simp only [runQueries, tags_changed_since_build]
    exact ih _ t v (tcsbGo_cache_mono th q.1 q.2 c t v hv)

/-- C8: across any sequence of `tags_changed_since_build` calls in one
process, starting from the empty cache a tag id is fetched remotely exactly
once when some query mentions it and never otherwise (so the first query
mentioning it issues the one fetch and every later query issues zero); and
once a tag id is cached, no further run fetches it again and its entry is
still present, unchanged, in the final cache — never refreshed or
evicted. -/
theorem c8_tag_change_cache_single_fetch (th : Nat → List TagChange)
    (qs : List (Nat × List Nat)) (t : Nat) :
    ((allLogs (runQueries th qs []).2).count t =
      if t ∈ mentionsOf qs then 1 else 0) ∧
    (∀ (c : List (Nat × List TagChange)) (v : List TagChange),
      cacheGet c t = some v →
      (allLogs (runQueries th qs c).2).count t = 0 ∧
      cacheGet (runQueries th qs c).1 t = some v) := by
  constructor
  · rw [runQueries_count]
    simp [cacheGet]
  · intro c v hv
    refine ⟨?_, runQueries_cache_mono th qs c t v hv⟩
    rw [runQueries_count]
    simp [hv]

/-- Concrete tag-history oracle for the C8 witness. -/
def thW : Nat → List TagChange :=
  fun t => [⟨t + 100, "tagged"⟩]

/-- Concrete query sequence for the C8 witness: tag 2 is mentioned by both
queries. -/
def qsW : List (Nat × List Nat) :=
  [(5, [1, 2]), (7, [2, 3])]

/-- Witness for C8 at a concrete oracle, query sequence, and cache. -/
theorem c8_tag_change_cache_single_fetch_witness :
    ((allLogs (runQueries thW qsW []).2).count 2 =
      if 2 ∈ mentionsOf qsW then 1 else 0) ∧
    ((allLogs (runQueries thW qsW [(2, [])]).2).count 2 = 0 ∧
      cacheGet (runQueries thW qsW [(2, [])]).1 2 = some []) :=
  ⟨(c8_tag_change_cache_single_fetch thW qsW 2).1,
   (c8_tag_change_cache_single_fetch thW qsW 2).2 [(2, [])] [] rfl⟩

end Doozer
